import Mathlib

/-!
Verification development for the dual-token authentication and session-proxy
subsystem of the roll-a-bowl frontend.

Embedded components (shallow embedding, translated from the TypeScript source):

* `src/lib/backend/api-token-manager.ts` — `ApiTokenManager` (tenant Bearer
  token lifecycle): state `TMState`, operations `getTokenStep`,
  `refreshToken`, `completeRefresh`, predicate `needsRefresh`.
* `src/lib/session/index.ts` — `SessionManager` over the in-memory store
  (`createSession`, `getSession`, store `save`/`get`/`delete`) and the cookie
  helpers (`createSessionCookie`, `formatSetCookieHeader`,
  `parseSessionIdFromCookie`, `createLogoutCookie`).
* the authenticated axios client's request interceptor (Bearer-token
  injection with the token-exchange-endpoint exemption).
* `src/server/middleware/session.ts` — the GraphQL proxy's tenant-consistency
  authorizer (`extractTenantIdFromToken`, `validateTenantConsistency`, and
  the rejection logic of the POST handler).

Timestamps (`Date` values, `Date.now()`) are modelled as integers of
milliseconds.  JavaScript strings manipulated character-wise (cookie headers,
JWTs, URLs) are modelled as `List Char`; JavaScript truthiness is made
explicit wherever the source relies on it (`options.maxAge`, `value || null`,
`payload.tenantId || null`, `this.token && ...`).  Asynchronous interleaving
is modelled by the single-threaded event-loop discipline of Node: a code
path runs atomically between `await` points, so each `getToken()` call is a
synchronous step `getTokenStep` against the shared state, and the resolution
of the single in-flight refresh promise is a separate step `completeRefresh`.
-/

/-! ### JavaScript string primitives (used by several components)

`splitChar` is `String.prototype.split` with a single-character separator,
`joinSep` is `Array.prototype.join` with a single-character separator,
`jsTrim` is `String.prototype.trim`, `jsIncludes` is
`String.prototype.includes`, all over `List Char`. -/

/-- JavaScript `s.split(sep)` for a one-character separator: always returns a
nonempty list of (possibly empty) chunks. -/
def splitChar (sep : Char) : List Char → List (List Char)
  | [] => [[]]
  | c :: rest =>
    let r := splitChar sep rest
    if c = sep then [] :: r
    else (c :: r.headD []) :: r.tail

/-- JavaScript `parts.join(sep)` for a one-character separator. -/
def joinSep (sep : Char) : List (List Char) → List Char
  | [] => []
  | [x] => x
  | x :: xs => x ++ sep :: joinSep sep xs

/-- JavaScript `parts.join(sep)` for an arbitrary string separator. -/
def joinSepStr (sep : List Char) : List (List Char) → List Char
  | [] => []
  | [x] => x
  | x :: xs => x ++ sep ++ joinSepStr sep xs

/-- Characters stripped by JavaScript `String.prototype.trim` (ECMAScript
whitespace and line terminators). -/
def jsIsWs (c : Char) : Bool :=
  c = ' ' || c = '\t' || c = '\n' || c = '\r' ||
  c = (Char.ofNat 0xB) || c = (Char.ofNat 0xC) || c = (Char.ofNat 0xA0) ||
  c = (Char.ofNat 0x1680) ||
  (0x2000 ≤ c.toNat && c.toNat ≤ 0x200A) ||
  c = (Char.ofNat 0x2028) || c = (Char.ofNat 0x2029) ||
  c = (Char.ofNat 0x202F) || c = (Char.ofNat 0x205F) ||
  c = (Char.ofNat 0x3000) || c = (Char.ofNat 0xFEFF)

/-- JavaScript `s.trim()`. -/
def jsTrim (s : List Char) : List Char :=
  ((s.dropWhile jsIsWs).reverse.dropWhile jsIsWs).reverse

/-- Does `pat` occur at the head of `s`? (helper for `jsIncludes`). -/
def leadsWith : List Char → List Char → Bool
  | [], _ => true
  | _ :: _, [] => false
  | a :: as, b :: bs => a = b && leadsWith as bs

/-- JavaScript `s.includes(pat)`: substring containment. -/
def jsIncludes (s pat : List Char) : Bool :=
  (List.range (s.length + 1)).any fun i => leadsWith pat (s.drop i)

/-! ### ApiTokenManager (`src/lib/backend/api-token-manager.ts`)

The manager's mutable fields are the state; `refreshThresholdMs` is the
constant `5 * 60 * 1000`.  The in-flight `refreshPromise` field is modelled
as an optional promise identifier (`Option Nat`); awaiting promise `p`
later yields whatever `p` resolves to. -/

/-- Refresh 5 minutes before expiry (`refreshThresholdMs = 5 * 60 * 1000`). -/
def refreshThresholdMs : Int := 5 * 60 * 1000

/-- Mutable state of `ApiTokenManager`: `token`, `expiresAt` (epoch ms) and
the in-flight `refreshPromise` (an optional promise identifier). -/
structure TMState where
  token : Option String
  expiresAt : Option Int
  refreshPromise : Option Nat
deriving Repr, DecidableEq

/-- Translation of `ApiTokenManager.needsRefresh`: true when there is no
`expiresAt`, or when `expiresAt - now < refreshThresholdMs`. -/
def needsRefresh (now : Int) (s : TMState) : Bool :=
  match s.expiresAt with
  | none => true
  | some e => e - now < refreshThresholdMs

/-- The guard `this.token && this.expiresAt && !this.needsRefresh()` of
`getToken`, with JavaScript truthiness of the string `this.token` made
explicit (the empty string is falsy; a `Date` object is always truthy). -/
def hasFreshToken (now : Int) (s : TMState) : Bool :=
  match s.token with
  | some t => !t.isEmpty && s.expiresAt.isSome && !needsRefresh now s
  | none => false

/-- What a single `getToken()` call does synchronously (before any `await`):
return the cached token, attach to the in-flight refresh promise, or start a
new refresh (registering a fresh promise identifier). -/
inductive CallOutcome where
  | cached (tok : String)
  | attach (pid : Nat)
  | startRefresh (pid : Nat)
deriving Repr, DecidableEq

/-- The `refreshPromise` branch of `getToken`: attach to an in-flight
refresh if one exists, otherwise store a new promise (`fresh`) in
`this.refreshPromise` and start refreshing. -/
def startOrAttach (fresh : Nat) (s : TMState) : TMState × CallOutcome :=
  match s.refreshPromise with
  | some pid => (s, .attach pid)
  | none => ({ s with refreshPromise := some fresh }, .startRefresh fresh)

/-- Translation of `ApiTokenManager.getToken` up to its first `await`:
single-threaded, so this step is atomic.  `fresh` is the identifier the
refresh promise receives if this call starts one. -/
def getTokenStep (now : Int) (fresh : Nat) (s : TMState) : TMState × CallOutcome :=
  if hasFreshToken now s then
    match s.token with
    | some t => (s, .cached t)
    | none => startOrAttach fresh s
  else startOrAttach fresh s

/-- A batch of `n` concurrent `getToken()` calls: all of them run their
synchronous prefix before the in-flight refresh (if any) resolves, in
arrival order, with fresh promise identifiers drawn from `fresh`, `fresh+1`,
…  Returns the final state and each call's outcome. -/
def runCalls : Nat → Int → Nat → TMState → TMState × List CallOutcome
  | 0, _, _, s => (s, [])
  | n + 1, now, fresh, s =>
    let (s', o) := getTokenStep now fresh s
    let (s'', os) := runCalls n now (fresh + 1) s'
    (s'', o :: os)

/-- Number of token-exchange requests a batch of outcomes causes: each
`startRefresh` runs `refreshToken`, which POSTs to the token-exchange
endpoint exactly once; `cached` and `attach` cause none. -/
def exchangeCalls (os : List CallOutcome) : Nat :=
  (os.filter fun o => match o with | .startRefresh _ => true | _ => false).length

/-- The token value a call eventually resolves to, given the resolved value
of each promise identifier: a `cached` call resolves to the cached token;
`attach`/`startRefresh` calls resolve to their promise's value. -/
def resolveOutcome (res : Nat → String) : CallOutcome → String
  | .cached t => t
  | .attach p => res p
  | .startRefresh p => res p

/-- Resolution of a call when the refresh promise settles with an
`Except` (error or token), as in `getToken`'s `await this.refreshPromise`. -/
def resolveOutcomeE (res : Nat → Except String String) : CallOutcome → Except String String
  | .cached t => .ok t
  | .attach p => res p
  | .startRefresh p => res p

/-- Translation of `ApiTokenManager.refreshToken`, with the HTTP outcome of
the POST to `/v1/tenant-auth/token` passed in as `resp`: on success store
`token`/`expiresAt` and return the token; on failure rethrow, touching no
state. -/
def refreshToken (s : TMState) (resp : Except String (String × Int)) :
    TMState × Except String String :=
  match resp with
  | .ok (tok, exp) => ({ s with token := some tok, expiresAt := some exp }, .ok tok)
  | .error e => (s, .error e)

/-- The settling of the refresh promise as observed through `getToken`'s
`try … finally \x7b this.refreshPromise = null \x7d`: run `refreshToken` on the
response, then clear the in-flight marker whether it succeeded or failed. -/
def completeRefresh (s : TMState) (resp : Except String (String × Int)) :
    TMState × Except String String :=
  let (s', r) := refreshToken s resp
  ({ s' with refreshPromise := none }, r)

/-! ### SessionManager and the in-memory store (`src/lib/session/index.ts`)

The `MemorySessionStorage` map is modelled as an association list (at most
one live binding per key, as in a JavaScript `Map`): `storeSave` is
`Map.set` (update in place or append), `storeGet` is `Map.get`,
`storeDelete` is `Map.delete`.  `generateSessionId` uses `Date.now()` and
`Math.random()`, so the generated id is a parameter of `createSession`. -/

/-- The `SessionData` record of `src/lib/session/index.ts`, timestamps as
epoch milliseconds. -/
structure SessionData where
  id : String
  userId : Int
  email : String
  firstName : String
  lastName : String
  emailVerified : Bool
  userToken : String
  userTokenExpiresAt : Int
  createdAt : Int
  lastAccessedAt : Int
deriving Repr, DecidableEq

/-- The options record passed to `SessionManager.createSession`. -/
structure CreateSessionOptions where
  userId : Int
  email : String
  firstName : String
  lastName : String
  emailVerified : Bool
  userToken : String
  userTokenExpiresAt : Int
deriving Repr, DecidableEq

/-- The `Map<string, SessionData>` of `MemorySessionStorage`. -/
abbrev SessionStore := List (String × SessionData)

/-- `MemorySessionStorage.save`: `this.sessions.set(session.id, session)`. -/
def storeSave : SessionStore → SessionData → SessionStore
  | [], s => [(s.id, s)]
  | (k, v) :: rest, s => if k = s.id then (k, s) :: rest else (k, v) :: storeSave rest s

/-- `MemorySessionStorage.get`: `this.sessions.get(sessionId)`, then
`session || null` (a record is always truthy). -/
def storeGet : SessionStore → String → Option SessionData
  | [], _ => none
  | (k, v) :: rest, sid => if k = sid then some v else storeGet rest sid

/-- `MemorySessionStorage.delete`: `this.sessions.delete(sessionId)`. -/
def storeDelete : SessionStore → String → SessionStore
  | [], _ => []
  | (k, v) :: rest, sid => if k = sid then storeDelete rest sid else (k, v) :: storeDelete rest sid

/-- Translation of `SessionManager.createSession`: build the record with
`createdAt = lastAccessedAt = now` and persist it.  `sid` is the value
produced by `generateSessionId()` (nondeterministic: `Date.now()` plus
`Math.random()`). -/
def createSession (st : SessionStore) (opts : CreateSessionOptions) (now : Int)
    (sid : String) : SessionStore × SessionData :=
  let s : SessionData :=
    { id := sid
      userId := opts.userId
      email := opts.email
      firstName := opts.firstName
      lastName := opts.lastName
      emailVerified := opts.emailVerified
      userToken := opts.userToken
      userTokenExpiresAt := opts.userTokenExpiresAt
      createdAt := now
      lastAccessedAt := now }
  (storeSave st s, s)

/-- Translation of `SessionManager.getSession`: fetch; if absent return
null; if `now > userTokenExpiresAt` delete the record and return null (lazy
expiry); otherwise set `lastAccessedAt := now`, re-persist and return the
record. -/
def getSession (st : SessionStore) (sid : String) (now : Int) :
    SessionStore × Option SessionData :=
  match storeGet st sid with
  | none => (st, none)
  | some s =>
    if now > s.userTokenExpiresAt then (storeDelete st sid, none)
    else
      let s' := { s with lastAccessedAt := now }
      (storeSave st s', some s')

/-! ### Session configuration (`@/lib/config/session`, source embedded at
`src/lib/config/README.md`, environment loader `src/unnamed/part_006`)

The `sessionConfig` object copies the session-related fields from the
environment `config` object; each of those fields has a default that takes
effect when its environment variable is unset, some of which switch on
`NODE_ENV === 'production'`.  Below, `EnvSessionFields` is the restriction
of `EnvironmentConfig` to the fields `sessionConfig` reads, `defaultConfig`
gives their default values, and `sessionConfig` is a function of the
environment fields.  The cookie helpers of `src/lib/session/index.ts` then
take the configuration as an explicit argument.  Cookie names/values are
`List Char` because the parser works character-wise. -/

/-- The session-related fields of the `EnvironmentConfig` interface
(`src/unnamed/part_006`) — the ones the `sessionConfig` object reads.
Durations are nonnegative (the loader's defaults are; a negative
environment override is out of scope). -/
structure EnvSessionFields where
  jwtRefreshThreshold : Int
  sessionCookieName : List Char
  sessionCookieSecure : Bool
  sessionCookieHttpOnly : Bool
  sessionCookieSameSite : List Char
  sessionExpiryMs : Nat
deriving Repr, DecidableEq

/-- The values the `config` object of `src/unnamed/part_006` gives these
fields when none of the session environment variables are set:
`jwtRefreshThreshold = 300000`, `sessionCookieName = 'auth-session'`,
`sessionCookieSecure = (NODE_ENV === 'production')`,
`sessionCookieHttpOnly = true`, `sessionCookieSameSite = 'strict'` in
production and `'lax'` otherwise, `sessionExpiryMs = 3600000`. -/
def defaultConfig (isProduction : Bool) : EnvSessionFields :=
  { jwtRefreshThreshold := 300000
    sessionCookieName := "auth-session".data
    sessionCookieSecure := isProduction
    sessionCookieHttpOnly := true
    sessionCookieSameSite := if isProduction then "strict".data else "lax".data
    sessionExpiryMs := 3600000 }

/-- The `SessionConfig` interface of `@/lib/config/session` (embedded in
`src/lib/config/README.md`). -/
structure SessionConfig where
  cookieName : List Char
  cookieSecure : Bool
  cookieHttpOnly : Bool
  cookieSameSite : List Char
  expiryMs : Nat
  refreshThresholdMs : Int
deriving Repr, DecidableEq

/-- Translation of the `sessionConfig` object of `@/lib/config/session`:
field-for-field copy of the session fields of the environment `config`. -/
def sessionConfig (config : EnvSessionFields) : SessionConfig :=
  { cookieName := config.sessionCookieName
    cookieSecure := config.sessionCookieSecure
    cookieHttpOnly := config.sessionCookieHttpOnly
    cookieSameSite := config.sessionCookieSameSite
    expiryMs := config.sessionExpiryMs
    refreshThresholdMs := config.jwtRefreshThreshold }

/-- The `SessionCookie` record (name, value, and the `options` fields,
flattened). -/
structure SessionCookie where
  name : List Char
  value : List Char
  maxAge : Nat
  path : List Char
  httpOnly : Bool
  secure : Bool
  sameSite : List Char
deriving Repr, DecidableEq

/-- Translation of `createSessionCookie`: configured name, the session id as
value, `maxAge = Math.floor(expiryMs / 1000)`, path `/`, and the configured
security attributes. -/
def createSessionCookie (cfg : SessionConfig) (sessionId : List Char) : SessionCookie :=
  { name := cfg.cookieName
    value := sessionId
    maxAge := cfg.expiryMs / 1000
    path := "/".data
    httpOnly := cfg.cookieHttpOnly
    secure := cfg.cookieSecure
    sameSite := cfg.cookieSameSite }

/-- Translation of `createLogoutCookie`: configured name, empty value,
`maxAge = 0` (comment in the source: "Immediate expiry"). -/
def createLogoutCookie (cfg : SessionConfig) : SessionCookie :=
  { name := cfg.cookieName
    value := []
    maxAge := 0
    path := "/".data
    httpOnly := cfg.cookieHttpOnly
    secure := cfg.cookieSecure
    sameSite := cfg.cookieSameSite }

/-- Translation of `formatSetCookieHeader`: start from `name=value`, then
push each attribute guarded by its JavaScript truthiness — in particular
`if (options.maxAge)` is false for `maxAge = 0`, and `if (options.path)` /
`if (options.sameSite)` are false for empty strings — and join with `"; "`.
-/
def formatSetCookieHeader (c : SessionCookie) : List Char :=
  let parts := [c.name ++ '=' :: c.value]
  let parts := if c.maxAge ≠ 0 then parts ++ ["Max-Age=".data ++ (toString c.maxAge).data] else parts
  let parts := if c.path ≠ [] then parts ++ ["Path=".data ++ c.path] else parts
  let parts := if c.httpOnly then parts ++ ["HttpOnly".data] else parts
  let parts := if c.secure then parts ++ ["Secure".data] else parts
  let parts := if c.sameSite ≠ [] then parts ++ ["SameSite=".data ++ c.sameSite] else parts
  joinSepStr "; ".data parts

/-- Loop body of `parseSessionIdFromCookie`: for each `name=value` chunk
(already trimmed), split on `=`, rejoin the tail (values may contain `=`),
and on the first chunk whose name equals the configured cookie name return
`value || null` (the empty value is falsy). -/
def parseCookieLoop (cfg : SessionConfig) : List (List Char) → Option (List Char)
  | [] => none
  | c :: rest =>
    let parts := splitChar '=' c
    let name := parts.headD []
    let value := joinSep '=' parts.tail
    if name = cfg.cookieName then (if value = [] then none else some value)
    else parseCookieLoop cfg rest

/-- Translation of `parseSessionIdFromCookie`: null on an empty (falsy)
header, otherwise split the header on `;`, trim each chunk, and scan with
`parseCookieLoop`. -/
def parseSessionIdFromCookie (cfg : SessionConfig) (cookieHeader : List Char) :
    Option (List Char) :=
  if cookieHeader = [] then none
  else parseCookieLoop cfg ((splitChar ';' cookieHeader).map jsTrim)

/-! ### GraphQL proxy authorizer (`src/server/middleware/session.ts`)

`extractTenantIdFromToken` splits the token on `.`, checks for exactly three
parts, base64-decodes the payload, `JSON.parse`s it and reads
`payload.tenantId || null`, returning `null` on any exception.  The composite
library step `JSON.parse(Buffer.from(payload, 'base64').toString())`
followed by the `.tenantId` member access is Node/V8 library behaviour, not
repository code; it is abstracted as a parameter
`decodePayload : List Char → Option (Option Int)` where the outer `none`
means the step threw (invalid JSON after base64 decoding, or a member access
on `null`) and the inner value is the `tenantId` member (`none` when the
member is absent / `undefined`). -/

/-- Result of `JSON.parse(Buffer.from(p, 'base64').toString()).tenantId` for
a payload chunk `p`: `none` = the step threw; `some none` = parsed but no
`tenantId` member; `some (some v)` = `tenantId` is the number `v`. -/
abbrev PayloadDecoder := List Char → Option (Option Int)

/-- The expression `payload.tenantId || null`: JavaScript truthiness maps
`undefined` and `0` to `null`. -/
def tenantIdOrNull : Option Int → Option Int
  | none => none
  | some v => if v = 0 then none else some v

/-- Translation of `extractTenantIdFromToken`: split on `.`; if there are
not exactly three parts return null; otherwise decode the middle part and
apply `payload.tenantId || null`; any exception is caught and yields null. -/
def extractTenantIdFromToken (decodePayload : PayloadDecoder) (token : List Char) :
    Option Int :=
  let parts := splitChar '.' token
  if parts.length = 3 then
    match decodePayload (parts[1]?.getD []) with
    | none => none
    | some t => tenantIdOrNull t
  else none

/-- Translation of `validateTenantConsistency`: extract both tenant ids;
false if either is null (falsy), otherwise strict equality. -/
def validateTenantConsistency (decodePayload : PayloadDecoder)
    (bearerToken userToken : List Char) : Bool :=
  match extractTenantIdFromToken decodePayload bearerToken,
        extractTenantIdFromToken decodePayload userToken with
  | some b, some u => b = u
  | _, _ => false

/-- The `AuthTokens` record assembled by `extractAuthTokens`. -/
structure AuthTokens where
  bearerToken : List Char
  userToken : Option (List Char)
deriving Repr, DecidableEq

/-- Outcome of the proxy handler before the backend `fetch`: either a local
rejection (HTTP status, message and `extensions.code` of the GraphQL-shaped
error envelope `\x7berrors: [\x7bmessage, extensions: \x7bcode\x7d\x7d]\x7d`), or a forward to
the backend GraphQL endpoint carrying the shown headers.  A backend call
happens exactly on `forward`. -/
inductive ProxyOutcome where
  | reject (status : Nat) (message : String) (code : String)
  | forward (authorization : List Char) (xUserToken : Option (List Char))
deriving Repr, DecidableEq

/-- Translation of the guard/forward logic of `router.post('/')` in the
GraphQL proxy route, starting after `extractAuthTokens` (whose result —
null when `tokenManager.getToken()` threw — is passed in), up to the
backend `fetch`.  JavaScript truthiness of the strings is explicit: the
tenant-consistency guard is `tokens.userToken && !validateTenantConsistency`
— an absent or EMPTY user token is falsy and skips the check — the
`X-User-Token` header is added only under the same `if (tokens.userToken)`
truthiness, and an absent or empty `body.query` triggers the 400 branch. -/
def handleGraphQLPost (decodePayload : PayloadDecoder) (tokens : Option AuthTokens)
    (query : Option (List Char)) : ProxyOutcome :=
  match tokens with
  | none => .reject 401 "Unauthorized - Session required" "UNAUTHENTICATED"
  | some t =>
    let userTokenTruthy : Bool :=
      match t.userToken with
      | some u => !u.isEmpty
      | none => false
    if userTokenTruthy &&
        !validateTenantConsistency decodePayload t.bearerToken (t.userToken.getD []) then
      .reject 401 "Unauthorized - User tenant ID does not match API token tenant ID"
        "UNAUTHENTICATED"
    else
      match query with
      | none => .reject 400 "Query is required" "BAD_REQUEST"
      | some q =>
        if q = [] then .reject 400 "Query is required" "BAD_REQUEST"
        else .forward ("Bearer ".data ++ t.bearerToken)
          (if userTokenTruthy then t.userToken else none)

/-! ### Authenticated axios client request interceptor
(`createAuthenticatedAxiosClient`)

For each outbound request: if `config.url?.includes('/v1/tenant-auth/token')`
skip the Bearer injection; otherwise await `tokenManager.getToken()` and set
`config.headers.Authorization = 'Bearer ' + token`, rethrowing a failure
(which aborts the request). -/

/-- The token-exchange endpoint path tested by the interceptor. -/
def tokenExchangePath : List Char := "/v1/tenant-auth/token".data

/-- The request-config fields the interceptor reads and writes. -/
structure AxiosRequestConfig where
  url : Option (List Char)
  authorization : Option (List Char)
deriving Repr, DecidableEq

/-- Translation of the request interceptor: `getTokenResult` is what
`tokenManager.getToken()` settles to for this request.  Returns the config
the request is sent with, or the error that aborts the request. -/
def requestInterceptor (getTokenResult : Except String (List Char))
    (cfg : AxiosRequestConfig) : Except String AxiosRequestConfig :=
  let isTokenExchangeEndpoint :=
    match cfg.url with
    | some u => jsIncludes u tokenExchangePath
    | none => false
  if isTokenExchangeEndpoint then .ok cfg
  else
    match getTokenResult with
    | .ok tok => .ok { cfg with authorization := some ("Bearer ".data ++ tok) }
    | .error e => .error e

/-! ### Helper lemmas: token manager -/

/-- The cached-token guard ignores the `refreshPromise` field. -/
theorem hasFreshToken_congr (now : Int) (s1 s2 : TMState)
    (ht : s1.token = s2.token) (he : s1.expiresAt = s2.expiresAt) :
    hasFreshToken now s1 = hasFreshToken now s2 := by
  unfold hasFreshToken needsRefresh
  rw [ht, he]

/-- The cached-token guard only falls further once it is false: a token that
already needed a refresh (or was absent) still does so at any later time. -/
theorem hasFreshToken_mono (now now' : Int) (s : TMState) (hle : now ≤ now')
    (h : hasFreshToken now s = false) : hasFreshToken now' s = false := by
  obtain ⟨tok, exp, rp⟩ := s
  cases tok with
  | none => rfl
  | some t =>
    cases exp with
    | none => simp [hasFreshToken, needsRefresh]
    | some e =>
      simp only [hasFreshToken, needsRefresh, Option.isSome_some, Bool.and_true,
        Bool.true_and, Bool.and_eq_false_iff, Bool.not_eq_false', Bool.not_eq_false,
        decide_eq_true_eq] at h ⊢
      rcases h with h | h
      · exact Or.inl h
      · exact Or.inr (by omega)

/-- A `getToken()` call that finds no fresh token and no in-flight refresh
registers a new refresh promise and starts the refresh. -/
theorem getTokenStep_start (now : Int) (fresh : Nat) (s : TMState)
    (hNoTok : hasFreshToken now s = false) (hNoFlight : s.refreshPromise = none) :
    getTokenStep now fresh s =
      ({ s with refreshPromise := some fresh }, CallOutcome.startRefresh fresh) := by
  unfold getTokenStep startOrAttach
  rw [hNoTok, hNoFlight]
  rfl

/-- Calls that find no fresh token but an in-flight refresh all attach to
that refresh and leave the state untouched. -/
theorem runCalls_attach (n : Nat) (now : Int) (fresh p : Nat) (s : TMState)
    (hNoTok : hasFreshToken now s = false) (hFlight : s.refreshPromise = some p) :
    runCalls n now fresh s = (s, List.replicate n (CallOutcome.attach p)) := by
  induction n generalizing fresh with
  | zero => rfl
  | succ m ih =>
    have hstep : getTokenStep now fresh s = (s, CallOutcome.attach p) := by
      unfold getTokenStep startOrAttach
      rw [hNoTok, hFlight]
      rfl
    simp only [runCalls, hstep, ih (fresh + 1)]
    rfl

/-- Structure of a batch of `n ≥ 1` concurrent `getToken()` calls arriving
with no fresh token and no in-flight refresh: the first call starts the one
refresh (promise `fresh`), every later call attaches to it, and the final
state records that promise. -/
theorem runCalls_structure (n : Nat) (now : Int) (fresh : Nat) (s : TMState)
    (hn : 1 ≤ n) (hNoTok : hasFreshToken now s = false)
    (hNoFlight : s.refreshPromise = none) :
    runCalls n now fresh s =
      ({ s with refreshPromise := some fresh },
        CallOutcome.startRefresh fresh :: List.replicate (n - 1) (CallOutcome.attach fresh)) := by
  obtain ⟨m, rfl⟩ : ∃ m, n = m + 1 := ⟨n - 1, (Nat.succ_pred_eq_of_pos hn).symm⟩
  have hupd : hasFreshToken now { s with refreshPromise := some fresh } = false :=
    (hasFreshToken_congr now { s with refreshPromise := some fresh } s rfl rfl).trans hNoTok
  simp only [runCalls, getTokenStep_start now fresh s hNoTok hNoFlight,
    runCalls_attach m now (fresh + 1) fresh _ hupd rfl]
  rfl

/-- Attach-only outcome lists cause no token-exchange request. -/
theorem exchangeCalls_replicate_attach (m p : Nat) :
    exchangeCalls (List.replicate m (CallOutcome.attach p)) = 0 := by
  induction m with
  | zero => rfl
  | succ k ih =>
    simp only [exchangeCalls, List.replicate_succ, List.filter] at ih ⊢
    exact ih

/-! ### Claims about the token manager -/

/-- C1: for every N ≥ 1, when `getToken()` is invoked N times concurrently
while no valid cached Bearer token exists (no token, or the cached token is
within the refresh margin — `hasFreshToken = false`) and no refresh is in
flight, exactly one token-exchange request is issued to the backend
(`exchangeCalls = 1`) and all N calls resolve to the same token value (the
value the single refresh promise `fresh` resolves to). -/
theorem single_flight_refresh (n : Nat) (now : Int) (fresh : Nat) (s : TMState)
    (hn : 1 ≤ n) (hNoTok : hasFreshToken now s = false)
    (hNoFlight : s.refreshPromise = none) :
    exchangeCalls (runCalls n now fresh s).2 = 1 ∧
      ∀ res : Nat → String, ∀ o ∈ (runCalls n now fresh s).2,
        resolveOutcome res o = res fresh := by
  rw [runCalls_structure n now fresh s hn hNoTok hNoFlight]
  constructor
  · show exchangeCalls (CallOutcome.startRefresh fresh ::
      List.replicate (n - 1) (CallOutcome.attach fresh)) = 1
    simp only [exchangeCalls, List.filter, List.length_cons]
    have h0 := exchangeCalls_replicate_attach (n - 1) fresh
    simp only [exchangeCalls] at h0
    rw [h0]
  · intro res o ho
    rcases List.mem_cons.mp ho with rfl | ho
    · rfl
    · rw [List.eq_of_mem_replicate ho]
      rfl

/-- Witness for C1: three concurrent calls against the empty initial state
make exactly one exchange call and all resolve to promise 0's value. -/
theorem single_flight_refresh_witness :
    exchangeCalls (runCalls 3 0 0 ⟨none, none, none⟩).2 = 1 ∧
      ∀ res : Nat → String, ∀ o ∈ (runCalls 3 0 0 ⟨none, none, none⟩).2,
        resolveOutcome res o = res 0 :=
  single_flight_refresh 3 0 0 ⟨none, none, none⟩ (by decide) (by decide) rfl

/-- C3 (amended): for every `getToken()` call with a cached (nonempty) token
and a recorded expiry: if `expiresAt - now` is at least the 5-minute margin
the cached token is returned immediately, the state is untouched and no
token-exchange request is made (so a second sequential call behaves the
same); if `expiresAt - now` is strictly less than the margin (and no refresh
is in flight), a refresh is started before any token is handed out.  The
boundary `expiresAt - now = margin` belongs to the first case, not the
second (see the counterexample for the claim as originally stated). -/
theorem refresh_margin (now : Int) (fresh : Nat) (s : TMState) (t : String) (e : Int)
    (htok : s.token = some t) (hne : t ≠ "") (hexp : s.expiresAt = some e) :
    (refreshThresholdMs ≤ e - now →
      getTokenStep now fresh s = (s, CallOutcome.cached t) ∧
        exchangeCalls [(getTokenStep now fresh s).2] = 0) ∧
    (e - now < refreshThresholdMs → s.refreshPromise = none →
      getTokenStep now fresh s =
        ({ s with refreshPromise := some fresh }, CallOutcome.startRefresh fresh)) := by
  constructor
  · intro hfar
    have hie : t.isEmpty = false := by
      cases h : t.isEmpty with
      | false => rfl
      | true => exact absurd ((String.isEmpty_iff t).mp h) hne
    have hnr : decide (e - now < refreshThresholdMs) = false :=
      decide_eq_false_iff_not.mpr (not_lt.mpr hfar)
    have hfresh : hasFreshToken now s = true := by
      unfold hasFreshToken needsRefresh
      rw [htok, hexp]
      simp [hie, hnr]
    have hstep : getTokenStep now fresh s = (s, CallOutcome.cached t) := by
      unfold getTokenStep
      rw [hfresh, htok]
      rfl
    exact ⟨hstep, by rw [hstep]; rfl⟩
  · intro hnear hNoFlight
    have hstale : hasFreshToken now s = false := by
      unfold hasFreshToken needsRefresh
      rw [htok, hexp]
      simp [hnear]
    exact getTokenStep_start now fresh s hstale hNoFlight

/-- Witness for C3 (amended): at `now = 0` a token expiring in 10 minutes is
handed out from the cache with no exchange call; a token expiring in 1
minute triggers a refresh. -/
theorem refresh_margin_witness :
    (refreshThresholdMs ≤ (600000 : Int) - 0 →
      getTokenStep 0 0 ⟨some "tokA", some 600000, none⟩ =
          (⟨some "tokA", some 600000, none⟩, CallOutcome.cached "tokA") ∧
        exchangeCalls [(getTokenStep 0 0 ⟨some "tokA", some 600000, none⟩).2] = 0) ∧
    ((600000 : Int) - 0 < refreshThresholdMs →
      (⟨some "tokA", some 600000, none⟩ : TMState).refreshPromise = none →
        getTokenStep 0 0 ⟨some "tokA", some 600000, none⟩ =
          (⟨some "tokA", some 600000, some 0⟩, CallOutcome.startRefresh 0)) :=
  refresh_margin 0 0 ⟨some "tokA", some 600000, none⟩ "tokA" 600000 rfl
    (by decide) rfl

/-- Counterexample to C3 as stated: with the cached token expiring exactly
`refreshThresholdMs` from `now` (not "more than the margin away", hence
"within the margin" under the claim's dichotomy, and in the spec's own
`expiresAt - now > margin` branching the refresh case), the code returns the
cached token unchanged and performs no refresh, because `needsRefresh` uses
the strict comparison `timeUntilExpiry < refreshThresholdMs`. -/
theorem refresh_margin_boundary_counterexample :
    ¬((300000 : Int) - 0 > refreshThresholdMs) ∧
      getTokenStep 0 0 ⟨some "tok", some 300000, none⟩ =
        (⟨some "tok", some 300000, none⟩, CallOutcome.cached "tok") ∧
      exchangeCalls [(getTokenStep 0 0 ⟨some "tok", some 300000, none⟩).2] = 0 := by
  decide

/-- C8: when the token-exchange POST performed during a refresh fails, the
error is propagated to every caller awaiting that refresh (every outcome of
the batch resolves to the same error the promise rejected with), the
previously cached `token` and `expiresAt` are left exactly as they were
before the refresh started, and the in-flight `refreshPromise` is cleared,
so a later `getToken()` (at the same or any later time) starts a new
refresh. -/
theorem refresh_failure_propagates (n : Nat) (now : Int) (fresh : Nat) (s : TMState)
    (e : String) (hn : 1 ≤ n) (hNoTok : hasFreshToken now s = false)
    (hNoFlight : s.refreshPromise = none) :
    Except.error e = (completeRefresh (runCalls n now fresh s).1 (Except.error e)).2 ∧
    (completeRefresh (runCalls n now fresh s).1 (Except.error e)).1.token = s.token ∧
    (completeRefresh (runCalls n now fresh s).1 (Except.error e)).1.expiresAt = s.expiresAt ∧
    (completeRefresh (runCalls n now fresh s).1 (Except.error e)).1.refreshPromise = none ∧
    (∀ res : Nat → Except String String, res fresh = Except.error e →
      ∀ o ∈ (runCalls n now fresh s).2, resolveOutcomeE res o = Except.error e) ∧
    (∀ now' : Int, now ≤ now' → ∀ fresh' : Nat,
      (getTokenStep now' fresh'
        (completeRefresh (runCalls n now fresh s).1 (Except.error e)).1).2 =
        CallOutcome.startRefresh fresh') := by
  rw [runCalls_structure n now fresh s hn hNoTok hNoFlight]
  refine ⟨rfl, rfl, rfl, rfl, ?_, ?_⟩
  · intro res hres o ho
    rcases List.mem_cons.mp ho with rfl | ho
    · simp only [resolveOutcomeE, hres]
    · rw [List.eq_of_mem_replicate ho]
      simp only [resolveOutcomeE, hres]
  · intro now' hle fresh'
    have hstale' : hasFreshToken now'
        (completeRefresh ({ s with refreshPromise := some fresh },
          CallOutcome.startRefresh fresh :: List.replicate (n - 1)
            (CallOutcome.attach fresh)).1 (Except.error e)).1 = false := by
      refine (hasFreshToken_congr now' _ s rfl rfl).trans ?_
      exact hasFreshToken_mono now now' s hle hNoTok
    rw [getTokenStep_start now' fresh' _ hstale' rfl]

/-- Witness for C8: two concurrent calls with no cached token; the refresh
rejects with "boom"; both callers receive the error, the (empty) cache is
untouched, the marker is cleared and a later call starts promise 7. -/
theorem refresh_failure_propagates_witness :
    Except.error "boom" =
        (completeRefresh (runCalls 2 0 0 ⟨none, none, none⟩).1 (Except.error "boom")).2 ∧
    (completeRefresh (runCalls 2 0 0 ⟨none, none, none⟩).1 (Except.error "boom")).1.token
        = (⟨none, none, none⟩ : TMState).token ∧
    (completeRefresh (runCalls 2 0 0 ⟨none, none, none⟩).1 (Except.error "boom")).1.expiresAt
        = (⟨none, none, none⟩ : TMState).expiresAt ∧
    (completeRefresh (runCalls 2 0 0 ⟨none, none, none⟩).1 (Except.error "boom")).1.refreshPromise
        = none ∧
    (∀ res : Nat → Except String String, res 0 = Except.error "boom" →
      ∀ o ∈ (runCalls 2 0 0 ⟨none, none, none⟩).2,
        resolveOutcomeE res o = Except.error "boom") ∧
    (∀ now' : Int, (0 : Int) ≤ now' → ∀ fresh' : Nat,
      (getTokenStep now' fresh'
        (completeRefresh (runCalls 2 0 0 ⟨none, none, none⟩).1 (Except.error "boom")).1).2 =
        CallOutcome.startRefresh fresh') :=
  refresh_failure_propagates 2 0 0 ⟨none, none, none⟩ "boom" (by decide) (by decide) rfl

/-! ### Helper lemmas: session store -/

/-- After `delete(sid)`, looking up `sid` finds nothing. -/
theorem storeGet_delete (st : SessionStore) (sid : String) :
    storeGet (storeDelete st sid) sid = none := by
  induction st with
  | nil => rfl
  | cons kv rest ih =>
    obtain ⟨k, v⟩ := kv
    by_cases hk : k = sid
    · simpa [storeDelete, hk] using ih
    · simp [storeDelete, storeGet, hk, ih]

/-- After `save(s)`, looking up `s.id` finds exactly `s`. -/
theorem storeGet_save_self (st : SessionStore) (s : SessionData) :
    storeGet (storeSave st s) s.id = some s := by
  induction st with
  | nil => simp [storeSave, storeGet]
  | cons kv rest ih =>
    obtain ⟨k, v⟩ := kv
    by_cases hk : k = s.id
    · simp [storeSave, storeGet, hk]
    · simp [storeSave, storeGet, hk, ih]

/-! ### Claims about the session manager -/

/-- C4: for every stored session whose `userTokenExpiresAt` is in the past
at read time (`now > userTokenExpiresAt`, so even 1 ms past), `getSession`
deletes the record from the store and returns null, and every subsequent
`getSession` on the resulting store (at any read time) also returns null and
leaves the store unchanged. -/
theorem lazy_expiry (st : SessionStore) (sid : String) (now : Int) (s : SessionData)
    (hget : storeGet st sid = some s) (hexp : now > s.userTokenExpiresAt) :
    getSession st sid now = (storeDelete st sid, none) ∧
    ∀ now' : Int, getSession (storeDelete st sid) sid now' = (storeDelete st sid, none) := by
  constructor
  · simp only [getSession, hget]
    rw [if_pos hexp]
  · intro now'
    simp only [getSession, storeGet_delete]

/-- Witness for C4: a session expiring at t = 100 read at t = 101 is deleted
and null; re-reading the emptied store at t = 0 is also null. -/
theorem lazy_expiry_witness :
    getSession [("sess_1", ⟨"sess_1", 1, "a@b.c", "Ada", "L", true, "T", 100, 0, 0⟩)]
        "sess_1" 101 =
      (storeDelete [("sess_1", ⟨"sess_1", 1, "a@b.c", "Ada", "L", true, "T", 100, 0, 0⟩)]
        "sess_1", none) ∧
    ∀ now' : Int,
      getSession (storeDelete
          [("sess_1", ⟨"sess_1", 1, "a@b.c", "Ada", "L", true, "T", 100, 0, 0⟩)] "sess_1")
        "sess_1" now' =
      (storeDelete [("sess_1", ⟨"sess_1", 1, "a@b.c", "Ada", "L", true, "T", 100, 0, 0⟩)]
        "sess_1", none) :=
  lazy_expiry [("sess_1", ⟨"sess_1", 1, "a@b.c", "Ada", "L", true, "T", 100, 0, 0⟩)]
    "sess_1" 101 ⟨"sess_1", 1, "a@b.c", "Ada", "L", true, "T", 100, 0, 0⟩ rfl (by decide)

/-- C5 (amended): `createSession(opts)` at time `t1` followed by
`getSession(id)` at time `t2` (with `t1 ≤ t2` and the user token not yet
expired at `t2`) returns a record equal to the created one on all fields
except `lastAccessedAt`, which now equals the read time `t2`: it has
advanced (`≥` its creation value `t1`) and has advanced strictly exactly
when the read happens strictly later than creation (`t1 < t2`).  When the
two calls fall on the same millisecond (`t1 = t2`) it is unchanged, not
strictly advanced (see the counterexample for the claim as stated). -/
theorem session_round_trip (st : SessionStore) (opts : CreateSessionOptions)
    (t1 t2 : Int) (sid : String) (_h12 : t1 ≤ t2)
    (h2e : t2 ≤ opts.userTokenExpiresAt) :
    (createSession st opts t1 sid).2.lastAccessedAt = t1 ∧
    (getSession (createSession st opts t1 sid).1 sid t2).2 =
      some { (createSession st opts t1 sid).2 with lastAccessedAt := t2 } ∧
    (t1 < t2 →
      (createSession st opts t1 sid).2.lastAccessedAt <
        ({ (createSession st opts t1 sid).2 with lastAccessedAt := t2 }).lastAccessedAt) := by
  refine ⟨rfl, ?_, fun h => h⟩
  have hsave := storeGet_save_self st
    { id := sid
      userId := opts.userId
      email := opts.email
      firstName := opts.firstName
      lastName := opts.lastName
      emailVerified := opts.emailVerified
      userToken := opts.userToken
      userTokenExpiresAt := opts.userTokenExpiresAt
      createdAt := t1
      lastAccessedAt := t1 }
  simp only [createSession, getSession, hsave]
  rw [if_neg (not_lt.mpr h2e)]

/-- Witness for C5 (amended): create at t = 100, read at t = 250 with expiry
t = 1000: same record back except `lastAccessedAt`, now 250 > 100. -/
theorem session_round_trip_witness :
    (createSession [] ⟨1, "a@b.c", "Ada", "L", true, "T", 1000⟩ 100 "sess_1").2.lastAccessedAt
        = 100 ∧
    (getSession (createSession [] ⟨1, "a@b.c", "Ada", "L", true, "T", 1000⟩ 100 "sess_1").1
        "sess_1" 250).2 =
      some { (createSession [] ⟨1, "a@b.c", "Ada", "L", true, "T", 1000⟩ 100 "sess_1").2 with
        lastAccessedAt := 250 } ∧
    ((100 : Int) < 250 →
      (createSession [] ⟨1, "a@b.c", "Ada", "L", true, "T", 1000⟩ 100 "sess_1").2.lastAccessedAt <
        ({ (createSession [] ⟨1, "a@b.c", "Ada", "L", true, "T", 1000⟩ 100 "sess_1").2 with
          lastAccessedAt := 250 }).lastAccessedAt) :=
  session_round_trip [] ⟨1, "a@b.c", "Ada", "L", true, "T", 1000⟩ 100 250 "sess_1"
    (by decide) (by decide)

/-- Counterexample to C5 as stated: `getSession` sets `lastAccessedAt` to
`new Date()`, so when the read lands on the same millisecond as the
creation (both at t = 100, expiry t = 1000, well in the future), the
returned record is identical to the created one on every field —
`lastAccessedAt` included, which therefore has not strictly advanced past
its value at creation. -/
theorem session_round_trip_counterexample :
    (getSession (createSession [] ⟨1, "a@b.c", "Ada", "L", true, "T", 1000⟩ 100 "sess_1").1
        "sess_1" 100).2 =
      some (createSession [] ⟨1, "a@b.c", "Ada", "L", true, "T", 1000⟩ 100 "sess_1").2 ∧
    (createSession [] ⟨1, "a@b.c", "Ada", "L", true, "T", 1000⟩ 100 "sess_1").2.lastAccessedAt
        = 100 := by
  constructor
  · rfl
  · rfl

/-! ### Claim about the logout cookie (C7) -/

/-- C7: evaluation of the code at the claim's input, under the actual
session configuration (default environment values, both `NODE_ENV`
variants).  Serializing the logout cookie (configured name, empty value,
`maxAge = 0`) with `formatSetCookieHeader` yields a header with NO
`Max-Age` attribute at all — in production
`auth-session=; Path=/; HttpOnly; Secure; SameSite=strict`, in development
`auth-session=; Path=/; HttpOnly; SameSite=lax` — because the serializer
guards the attribute with the JavaScript truthiness test
`if (options.maxAge)`, which is false for `0`.  This contradicts the
source's own intent (`maxAge: 0, // Immediate expiry`, doc comment "Create
logout cookie (empty value, immediate expiry)") and the claim/spec, under
which the header carries `Max-Age=0`: without it the cookie is a browser
session cookie rather than being expired immediately. -/
theorem logout_cookie_header_omits_max_age :
    (∀ isProduction : Bool,
      jsIncludes
        (formatSetCookieHeader (createLogoutCookie (sessionConfig (defaultConfig isProduction))))
        "Max-Age".data = false) ∧
    formatSetCookieHeader (createLogoutCookie (sessionConfig (defaultConfig true))) =
      "auth-session=; Path=/; HttpOnly; Secure; SameSite=strict".data ∧
    formatSetCookieHeader (createLogoutCookie (sessionConfig (defaultConfig false))) =
      "auth-session=; Path=/; HttpOnly; SameSite=lax".data := by
  refine ⟨fun isProduction => ?_, by decide, by decide⟩
  cases isProduction
  · decide
  · decide

/-! ### Helper lemmas: JavaScript split/join/trim -/

/-- A split is never the empty list of chunks. -/
theorem splitChar_ne_nil (sep : Char) (l : List Char) : splitChar sep l ≠ [] := by
  cases l with
  | nil => simp [splitChar]
  | cons c rest =>
    simp only [splitChar]
    by_cases h : c = sep <;> simp [h]

/-- Splitting a string that starts with a separator-free block `a` followed
by a separator peels off `a` as the first chunk. -/
theorem splitChar_append_cons (sep : Char) (a b : List Char) (h : ¬ sep ∈ a) :
    splitChar sep (a ++ sep :: b) = a :: splitChar sep b := by
  induction a with
  | nil => simp [splitChar]
  | cons c rest ih =>
    have hc : c ≠ sep := fun hh => h (hh ▸ List.mem_cons_self c rest)
    have hr : ¬ sep ∈ rest := fun hh => h (List.mem_cons_of_mem c hh)
    rw [List.cons_append]
    simp only [splitChar, if_neg hc]
    rw [ih hr]
    rfl

/-- Joining the chunks of a split restores the original string
(`parts.join(sep)` is a left inverse of `split(sep)`). -/
theorem joinSep_splitChar (sep : Char) (l : List Char) :
    joinSep sep (splitChar sep l) = l := by
  induction l with
  | nil => rfl
  | cons c rest ih =>
    simp only [splitChar]
    by_cases h : c = sep
    · subst h
      simp only [if_pos rfl]
      obtain ⟨x, xs, hx⟩ : ∃ x xs, splitChar c rest = x :: xs := by
        cases hsc : splitChar c rest with
        | nil => exact absurd hsc (splitChar_ne_nil c rest)
        | cons x xs => exact ⟨x, xs, rfl⟩
      rw [hx] at ih ⊢
      cases xs with
      | nil => simp [joinSep] at ih ⊢; exact ih
      | cons y ys => simp [joinSep] at ih ⊢; exact ih
    · simp only [if_neg h]
      obtain ⟨x, xs, hx⟩ : ∃ x xs, splitChar sep rest = x :: xs := by
        cases hsc : splitChar sep rest with
        | nil => exact absurd hsc (splitChar_ne_nil sep rest)
        | cons x xs => exact ⟨x, xs, rfl⟩
      rw [hx] at ih ⊢
      cases xs with
      | nil => simp [joinSep] at ih ⊢; rw [ih]
      | cons y ys => simp [joinSep] at ih ⊢; exact ih

/-- `dropWhile` is the identity when the head does not satisfy the
predicate. -/
theorem dropWhile_eq_self_of_head (p : Char → Bool) (l : List Char)
    (h : ∀ c, l.head? = some c → p c = false) : l.dropWhile p = l := by
  cases l with
  | nil => rfl
  | cons a t => simp [List.dropWhile_cons, h a rfl]

/-- `trim()` is the identity on strings whose first and last characters are
not JavaScript whitespace. -/
theorem jsTrim_eq_self (l : List Char)
    (hhead : ∀ c, l.head? = some c → jsIsWs c = false)
    (hlast : ∀ c, l.getLast? = some c → jsIsWs c = false) :
    jsTrim l = l := by
  unfold jsTrim
  rw [dropWhile_eq_self_of_head jsIsWs l hhead]
  rw [dropWhile_eq_self_of_head jsIsWs l.reverse]
  · exact List.reverse_reverse l
  · intro c hc
    rw [List.head?_reverse] at hc
    exact hlast c hc

/-- Joining a list of at least two parts starts with the first part
followed by the separator. -/
theorem joinSepStr_cons_of_ne_nil (sep x : List Char) (L : List (List Char))
    (h : L ≠ []) : joinSepStr sep (x :: L) = x ++ sep ++ joinSepStr sep L := by
  cases L with
  | nil => exact absurd rfl h
  | cons y ys => rfl

/-- The serializer's `let`-chain of conditional pushes, flattened: the
header is the join of the `name=value` chunk followed by the present
attribute parts. -/
theorem formatSetCookieHeader_parts (c : SessionCookie) :
    formatSetCookieHeader c =
      joinSepStr "; ".data ((c.name ++ '=' :: c.value) ::
        ((if c.maxAge ≠ 0 then ["Max-Age=".data ++ (toString c.maxAge).data] else []) ++
         (if c.path ≠ [] then ["Path=".data ++ c.path] else []) ++
         (if c.httpOnly = true then ["HttpOnly".data] else []) ++
         (if c.secure = true then ["Secure".data] else []) ++
         (if c.sameSite ≠ [] then ["SameSite=".data ++ c.sameSite] else []))) := by
  unfold formatSetCookieHeader
  by_cases h1 : c.maxAge ≠ 0 <;> by_cases h2 : c.path ≠ [] <;>
    by_cases h3 : c.httpOnly = true <;> by_cases h4 : c.secure = true <;>
    by_cases h5 : c.sameSite ≠ [] <;>
    simp [h1, h2, h3, h4, h5]

/-- Shape of the `Set-Cookie` header produced for a session id under any
cookie configuration: the `name=value` chunk, then `; `, then the remaining
attributes (nonempty, since `Path=/` is always present). -/
theorem sessionHeader_shape (cfg : SessionConfig) (id : List Char) :
    ∃ rest : List Char,
      formatSetCookieHeader (createSessionCookie cfg id) =
        (cfg.cookieName ++ '=' :: id) ++ ';' :: ' ' :: rest := by
  rw [formatSetCookieHeader_parts]
  have hpath : (if ("/".data : List Char) ≠ [] then
      ["Path=".data ++ "/".data] else []) = ["Path=".data ++ "/".data] :=
    if_pos (by decide)
  simp only [createSessionCookie, hpath]
  set A1 := (if (cfg.expiryMs / 1000 : Nat) ≠ 0 then
    ["Max-Age=".data ++ (toString (cfg.expiryMs / 1000)).data] else []) with hA1
  set A3 := (if cfg.cookieHttpOnly = true then ["HttpOnly".data] else []) with hA3
  set A4 := (if cfg.cookieSecure = true then ["Secure".data] else []) with hA4
  set A5 := (if cfg.cookieSameSite ≠ [] then
    ["SameSite=".data ++ cfg.cookieSameSite] else []) with hA5
  have hT : A1 ++ ["Path=".data ++ "/".data] ++ A3 ++ A4 ++ A5 ≠ [] := by
    simp [List.append_eq_nil]
  rw [joinSepStr_cons_of_ne_nil "; ".data _ _ hT]
  exact ⟨joinSepStr "; ".data (A1 ++ ["Path=".data ++ "/".data] ++ A3 ++ A4 ++ A5),
    by simp [List.append_assoc]⟩

/-- The cookie round-trip for an arbitrary configuration whose cookie name
is nonempty, free of `;` and `=`, and does not start with JavaScript
whitespace (the configured `auth-session` qualifies), and a session id that
is nonempty, free of `;` and does not end in JavaScript whitespace. -/
theorem cookie_round_trip_any (cfg : SessionConfig) (id : List Char)
    (hne : id ≠ []) (hsemi : ¬ ';' ∈ id)
    (hlast : ∀ c, id.getLast? = some c → jsIsWs c = false)
    (hn_ne : cfg.cookieName ≠ [])
    (hn_semi : ¬ ';' ∈ cfg.cookieName)
    (hn_eq : ¬ '=' ∈ cfg.cookieName)
    (hn_head : ∀ c, cfg.cookieName.head? = some c → jsIsWs c = false) :
    parseSessionIdFromCookie cfg
      (formatSetCookieHeader (createSessionCookie cfg id)) = some id := by
  obtain ⟨rest, hshape⟩ := sessionHeader_shape cfg id
  rw [hshape]
  have hsemiA : ¬ ';' ∈ (cfg.cookieName ++ '=' :: id) := by
    intro hmem
    rcases List.mem_append.mp hmem with hmem | hmem
    · exact hn_semi hmem
    · rcases List.mem_cons.mp hmem with hmem | hmem
      · exact absurd hmem (by decide)
      · exact hsemi hmem
  have hnonempty : (cfg.cookieName ++ '=' :: id) ++ ';' :: ' ' :: rest ≠ [] := by
    simp
  unfold parseSessionIdFromCookie
  rw [if_neg hnonempty]
  rw [splitChar_append_cons ';' _ _ hsemiA]
  rw [List.map_cons]
  have htrim : jsTrim (cfg.cookieName ++ '=' :: id) = cfg.cookieName ++ '=' :: id := by
    apply jsTrim_eq_self
    · intro c hc
      cases hcn : cfg.cookieName with
      | nil => exact absurd hcn hn_ne
      | cons c0 cs =>
        rw [hcn, List.cons_append, List.head?_cons] at hc
        injection hc with hceq
        subst hceq
        exact hn_head c0 (by rw [hcn]; rfl)
    · intro c hc
      rw [List.getLast?_append_cons] at hc
      cases id with
      | nil => exact absurd rfl hne
      | cons y ys =>
        rw [List.getLast?_cons_cons] at hc
        exact hlast c hc
  rw [htrim]
  show parseCookieLoop cfg _ = some id
  unfold parseCookieLoop
  rw [splitChar_append_cons '=' _ _ hn_eq]
  simp only [List.headD_cons, List.tail_cons, eq_self_iff_true, if_true]
  rw [joinSep_splitChar]
  rw [if_neg hne]

/-! ### Claim about the cookie round-trip (C6) -/

/-- C6 (amended): under the actual session configuration (default
environment values, either `NODE_ENV` variant), for every session id that
is nonempty, contains no `;` and does not end in JavaScript whitespace,
`parseSessionIdFromCookie(formatSetCookieHeader(createSessionCookie(id)))`
recovers `id` exactly.  (The restrictions are forced by the parser: an
empty id serializes to `auth-session=` whose parsed value `'' || null` is
null — see the counterexample — a `;` inside the id would be taken as an
attribute separator, and trailing whitespace is removed by the parser's
`trim()`.  Every id the manager actually generates — `sess_<ms>_<base36>`
— satisfies them.) -/
theorem cookie_round_trip (isProduction : Bool) (id : List Char)
    (hne : id ≠ []) (hsemi : ¬ ';' ∈ id)
    (hlast : ∀ c, id.getLast? = some c → jsIsWs c = false) :
    parseSessionIdFromCookie (sessionConfig (defaultConfig isProduction))
      (formatSetCookieHeader
        (createSessionCookie (sessionConfig (defaultConfig isProduction)) id)) =
      some id := by
  apply cookie_round_trip_any _ id hne hsemi hlast
  · cases isProduction <;> decide
  · cases isProduction <;> decide
  · cases isProduction <;> decide
  · intro c hc
    cases isProduction
    · rw [show ((sessionConfig (defaultConfig false)).cookieName.head?) = some 'a' from rfl]
        at hc
      cases hc
      decide
    · rw [show ((sessionConfig (defaultConfig true)).cookieName.head?) = some 'a' from rfl]
        at hc
      cases hc
      decide

/-- Witness for C6 (amended): a generator-shaped id `sess_123_abc` survives
the cookie round-trip under the development-default configuration. -/
theorem cookie_round_trip_witness :
    parseSessionIdFromCookie (sessionConfig (defaultConfig false))
      (formatSetCookieHeader
        (createSessionCookie (sessionConfig (defaultConfig false)) "sess_123_abc".data)) =
      some "sess_123_abc".data :=
  cookie_round_trip false "sess_123_abc".data (by decide) (by decide)
    (by
      intro c hc
      rw [show ("sess_123_abc".data.getLast?) = some 'c' from rfl] at hc
      cases hc
      decide)

/-- Counterexample to C6 as stated ("for every session id string"): under
the actual configuration (development defaults; the production variant
behaves identically), the empty id serializes to a header starting
`auth-session=`, and the parser maps the empty value through
`value || null` to null instead of returning the empty string. -/
theorem cookie_round_trip_counterexample :
    parseSessionIdFromCookie (sessionConfig (defaultConfig false))
      (formatSetCookieHeader
        (createSessionCookie (sessionConfig (defaultConfig false)) "".data)) = none ∧
    (none : Option (List Char)) ≠ some "".data := by
  constructor
  · decide
  · decide

/-! ### Claims about the GraphQL proxy authorizer -/

/-- A concrete payload decoder used to instantiate the decoder-parametric
proxy theorems: four recognizable payload chunks, everything else fails to
parse. -/
def sampleDecoder : PayloadDecoder := fun p =>
  if p = "p1".data then some (some 1)
  else if p = "p2".data then some (some 2)
  else if p = "pnone".data then some none
  else if p = "pzero".data then some (some 0)
  else none

/-- C2: for every GraphQL proxy request carrying a user token, if the
`tenantId` claim decoded from the Bearer token differs from the one decoded
from the user token, the proxy responds 401 with the GraphQL-shaped error
envelope (code `UNAUTHENTICATED`) and never forwards to the backend GraphQL
endpoint (the backend `fetch` happens only on a `forward` outcome). -/
theorem tenant_mismatch_rejected (d : PayloadDecoder) (bearer user : List Char)
    (query : Option (List Char)) (b u : Int)
    (hb : extractTenantIdFromToken d bearer = some b)
    (hu : extractTenantIdFromToken d user = some u)
    (hbu : b ≠ u) :
    handleGraphQLPost d (some ⟨bearer, some user⟩) query =
      ProxyOutcome.reject 401
        "Unauthorized - User tenant ID does not match API token tenant ID"
        "UNAUTHENTICATED" ∧
    ∀ auth xut, handleGraphQLPost d (some ⟨bearer, some user⟩) query ≠
      ProxyOutcome.forward auth xut := by
  have hune : user ≠ [] := by
    intro h
    rw [h] at hu
    rw [show extractTenantIdFromToken d [] = none from rfl] at hu
    cases hu
  obtain ⟨c0, cs, rfl⟩ : ∃ c0 cs, user = c0 :: cs := by
    cases user with
    | nil => exact absurd rfl hune
    | cons c0 cs => exact ⟨c0, cs, rfl⟩
  have hv : validateTenantConsistency d bearer (c0 :: cs) = false := by
    unfold validateTenantConsistency
    rw [hb, hu]
    simp [hbu]
  have hmain : handleGraphQLPost d (some ⟨bearer, some (c0 :: cs)⟩) query =
      ProxyOutcome.reject 401
        "Unauthorized - User tenant ID does not match API token tenant ID"
        "UNAUTHENTICATED" := by
    unfold handleGraphQLPost
    simp [hv]
  exact ⟨hmain, fun auth xut => by rw [hmain]; intro hcontra; cases hcontra⟩

/-- Witness for C2: a Bearer token with `tenantId = 1` (`h.p1.s`) and a
user token with `tenantId = 2` (`h.p2.s`) are rejected with 401 and never
forwarded. -/
theorem tenant_mismatch_rejected_witness :
    handleGraphQLPost sampleDecoder
        (some ⟨"h.p1.s".data, some "h.p2.s".data⟩) (some "query".data) =
      ProxyOutcome.reject 401
        "Unauthorized - User tenant ID does not match API token tenant ID"
        "UNAUTHENTICATED" ∧
    ∀ auth xut, handleGraphQLPost sampleDecoder
        (some ⟨"h.p1.s".data, some "h.p2.s".data⟩) (some "query".data) ≠
      ProxyOutcome.forward auth xut :=
  tenant_mismatch_rejected sampleDecoder "h.p1.s".data "h.p2.s".data
    (some "query".data) 1 2 (by decide) (by decide) (by decide)

/-- C10 (amended): tenant-claim extraction is total (an `Option`-valued
function rather than an exception) and returns null on every malformed
input — a token that is not a three-part dot-separated JWT, a payload on
which the base64-decode-and-JSON-parse step throws, and an absent or zero
`tenantId` claim all yield null — and whenever either side's extraction
yields null on a request carrying a NONEMPTY user token (including when
both tokens fail identically, so the two claims do not "differ"), the
request is rejected with 401 and never forwarded.  The empty user token is
outside this rejection guarantee: it is falsy, so the source's
`tokens.userToken && !validateTenantConsistency(...)` guard skips the check
and the request is forwarded without an `X-User-Token` header (see the
counterexample). -/
theorem malformed_token_rejected (d : PayloadDecoder) (bearer user : List Char)
    (query : Option (List Char)) :
    (user ≠ [] →
      (extractTenantIdFromToken d bearer = none ∨
        extractTenantIdFromToken d user = none) →
      handleGraphQLPost d (some ⟨bearer, some user⟩) query =
        ProxyOutcome.reject 401
          "Unauthorized - User tenant ID does not match API token tenant ID"
          "UNAUTHENTICATED" ∧
      ∀ auth xut, handleGraphQLPost d (some ⟨bearer, some user⟩) query ≠
        ProxyOutcome.forward auth xut) ∧
    (∀ token : List Char, (splitChar '.' token).length ≠ 3 →
      extractTenantIdFromToken d token = none) ∧
    (∀ token : List Char, (splitChar '.' token).length = 3 →
      d ((splitChar '.' token)[1]?.getD []) = none →
      extractTenantIdFromToken d token = none) ∧
    (∀ token : List Char, (splitChar '.' token).length = 3 →
      (d ((splitChar '.' token)[1]?.getD []) = some none ∨
        d ((splitChar '.' token)[1]?.getD []) = some (some 0)) →
      extractTenantIdFromToken d token = none) := by
  refine ⟨?_, ?_, ?_, ?_⟩
  · intro hune h
    obtain ⟨c0, cs, rfl⟩ : ∃ c0 cs, user = c0 :: cs := by
      cases user with
      | nil => exact absurd rfl hune
      | cons c0 cs => exact ⟨c0, cs, rfl⟩
    have hv : validateTenantConsistency d bearer (c0 :: cs) = false := by
      unfold validateTenantConsistency
      rcases h with h | h
      · rw [h]
      · rw [h]
        cases extractTenantIdFromToken d bearer <;> rfl
    have hmain : handleGraphQLPost d (some ⟨bearer, some (c0 :: cs)⟩) query =
        ProxyOutcome.reject 401
          "Unauthorized - User tenant ID does not match API token tenant ID"
          "UNAUTHENTICATED" := by
      unfold handleGraphQLPost
      simp [hv]
    exact ⟨hmain, fun auth xut => by rw [hmain]; intro hcontra; cases hcontra⟩
  · intro token hlen
    unfold extractTenantIdFromToken
    rw [if_neg hlen]
  · intro token hlen hd
    unfold extractTenantIdFromToken
    rw [if_pos hlen, hd]
  · intro token hlen hd
    unfold extractTenantIdFromToken
    rw [if_pos hlen]
    rcases hd with hd | hd
    · rw [hd]; rfl
    · rw [hd]
      simp [tenantIdOrNull]

/-- Witness for C10 (amended): the one-part token `bad` and the unparseable
payload `h.junk.s` extract to null; `h.pnone.s` (no `tenantId`) and
`h.pzero.s` (`tenantId = 0`) extract to null; a request whose two
(nonempty) tokens both fail extraction identically is still rejected with
401. -/
theorem malformed_token_rejected_witness :
    extractTenantIdFromToken sampleDecoder "bad".data = none ∧
    extractTenantIdFromToken sampleDecoder "h.junk.s".data = none ∧
    extractTenantIdFromToken sampleDecoder "h.pnone.s".data = none ∧
    extractTenantIdFromToken sampleDecoder "h.pzero.s".data = none ∧
    handleGraphQLPost sampleDecoder
        (some ⟨"bad".data, some "bad".data⟩) (some "query".data) =
      ProxyOutcome.reject 401
        "Unauthorized - User tenant ID does not match API token tenant ID"
        "UNAUTHENTICATED" :=
  ⟨(malformed_token_rejected sampleDecoder "bad".data "bad".data none).2.1
      "bad".data (by decide),
   (malformed_token_rejected sampleDecoder "bad".data "bad".data none).2.2.1
      "h.junk.s".data (by decide) (by decide),
   (malformed_token_rejected sampleDecoder "bad".data "bad".data none).2.2.2
      "h.pnone.s".data (by decide) (Or.inl (by decide)),
   (malformed_token_rejected sampleDecoder "bad".data "bad".data none).2.2.2
      "h.pzero.s".data (by decide) (Or.inr (by decide)),
   ((malformed_token_rejected sampleDecoder "bad".data "bad".data
        (some "query".data)).1 (by decide)
      (Or.inl ((malformed_token_rejected sampleDecoder "bad".data "bad".data none).2.1
        "bad".data (by decide)))).1⟩

/-- Counterexample to C10 as stated: the EMPTY user token cannot yield a
truthy `tenantId` claim (it is not a three-part dot-separated JWT, its
extraction is null), yet the proxy does not reject: the guard
`tokens.userToken && !validateTenantConsistency(...)` is short-circuited by
the falsy empty string, so the request is forwarded to the backend — with
no `X-User-Token` header, since `if (tokens.userToken)` is also falsy. -/
theorem malformed_token_forwarded_counterexample :
    extractTenantIdFromToken sampleDecoder [] = none ∧
    handleGraphQLPost sampleDecoder
        (some ⟨"h.p1.s".data, some []⟩) (some "query".data) =
      ProxyOutcome.forward ("Bearer ".data ++ "h.p1.s".data) none := by
  constructor
  · rfl
  · rfl

/-! ### Claims about the request interceptor -/

/-- C9 (amended): the interceptor's exemption is the substring test
`config.url?.includes('/v1/tenant-auth/token')`, not equality with the
endpoint path: a request whose URL contains the substring (in particular the
token-exchange endpoint itself) is passed through untouched with no
`Authorization` header added; every request whose URL does not contain the
substring gets `Authorization: Bearer <token>` from `getToken()`, and if
`getToken()` rejects, the request is aborted with that error propagated —
no request on this non-exempt path is ever sent without the header. -/
theorem interceptor_bearer_header (r : Except String (List Char))
    (cfg : AxiosRequestConfig) (u : List Char) (hurl : cfg.url = some u) :
    (jsIncludes u tokenExchangePath = true →
      requestInterceptor r cfg = Except.ok cfg) ∧
    (jsIncludes u tokenExchangePath = false →
      (∀ tok, r = Except.ok tok →
        requestInterceptor r cfg =
          Except.ok { cfg with authorization := some ("Bearer ".data ++ tok) }) ∧
      (∀ e, r = Except.error e → requestInterceptor r cfg = Except.error e)) := by
  constructor
  · intro hinc
    unfold requestInterceptor
    rw [hurl]
    simp [hinc]
  · intro hninc
    constructor
    · intro tok hr
      subst hr
      unfold requestInterceptor
      rw [hurl]
      simp [hninc]
    · intro e hr
      subst hr
      unfold requestInterceptor
      rw [hurl]
      simp [hninc]

/-- Witness for C9 (amended): `/v1/recipes` gets the Bearer header on
success and aborts with the error on failure; the token-exchange endpoint
itself is passed through without a header. -/
theorem interceptor_bearer_header_witness :
    requestInterceptor (Except.ok "T".data) ⟨some "/v1/recipes".data, none⟩ =
      Except.ok ⟨some "/v1/recipes".data, some ("Bearer ".data ++ "T".data)⟩ ∧
    requestInterceptor (Except.error "down") ⟨some "/v1/recipes".data, none⟩ =
      Except.error "down" ∧
    requestInterceptor (Except.ok "T".data) ⟨some tokenExchangePath, none⟩ =
      Except.ok ⟨some tokenExchangePath, none⟩ :=
  ⟨((interceptor_bearer_header (Except.ok "T".data)
        ⟨some "/v1/recipes".data, none⟩ "/v1/recipes".data rfl).2
      (by decide)).1 "T".data rfl,
   ((interceptor_bearer_header (Except.error "down")
        ⟨some "/v1/recipes".data, none⟩ "/v1/recipes".data rfl).2
      (by decide)).2 "down" rfl,
   (interceptor_bearer_header (Except.ok "T".data)
        ⟨some tokenExchangePath, none⟩ tokenExchangePath rfl).1 (by decide)⟩

/-- Counterexample to C9 as stated: the URL
`/api/v1/tenant-auth/token-stats` is not the token-exchange endpoint, yet —
because the exemption is a substring `includes` test — the interceptor
passes the request through with no `Authorization` header, contradicting
"for every other request the header Authorization: Bearer token is set". -/
theorem interceptor_substring_counterexample :
    "/api/v1/tenant-auth/token-stats".data ≠ tokenExchangePath ∧
    requestInterceptor (Except.ok "T".data)
        ⟨some "/api/v1/tenant-auth/token-stats".data, none⟩ =
      Except.ok ⟨some "/api/v1/tenant-auth/token-stats".data, none⟩ := by
  constructor
  · decide
  · rfl
